import Mathlib

/-!
Verification development for the events-rental backend: the quote/customer
status lifecycle, the scheduled cleanup sweep, the contact-message schema,
and the package-service normalization helpers.  Timestamps are modelled as
integers (milliseconds since the epoch, as produced by Date.now()), record
stores as lists of records, and fallible operations as Except values.
-/

namespace Eargle

/-! ## Time constants (backend server setup, lines 42-44) -/

def ONE_DAY_MS : Int := 24 * 60 * 60 * 1000

def THIRTY_DAYS_MS : Int := 30 * ONE_DAY_MS

def STARTUP_DELAY_MS : Int := 10000

/-! ## Data model: customers, quotes, and the document store -/

/-- A customer record as seen by the cleanup sweep: a status string and a
creation timestamp in milliseconds.  The id field keeps distinct records
distinguishable. -/
structure Customer where
  id : Nat
  status : String
  createdAt : Int
deriving DecidableEq, Repr

/-- A quote record as seen by the lifecycle engine: a status string and an
updated-at timestamp in milliseconds. -/
structure Quote where
  id : Nat
  status : String
  updatedAt : Int
deriving DecidableEq, Repr

/-- The document store holds the customers and quotes collections. -/
structure Store where
  customers : List Customer
  quotes : List Quote
deriving DecidableEq, Repr

/-! ## Cleanup sweep (cleanupOldQuotations in the backend server setup) -/

/-- The cutoff computed by the sweep: now minus thirty days. -/
def quotationCutoff (now : Int) : Int := now - THIRTY_DAYS_MS

/-- The deleteMany filter of the sweep: status is "quotation" and createdAt
is strictly below the cutoff. -/
def isStaleQuotation (now : Int) (c : Customer) : Bool :=
  c.status == "quotation" && decide (c.createdAt < quotationCutoff now)

/-- The deleteMany store operation issued by the sweep.  When the store is
unavailable it fails; otherwise it removes every customer matching the
stale-quotation filter and reports the deleted count.  Quotes are untouched:
the operation addresses only the customers collection. -/
def deleteManyStaleQuotations (avail : Bool) (now : Int) (st : Store) :
    Except String (Store × Nat) :=
  if avail then
    let kept := st.customers.filter (fun c => !isStaleQuotation now c)
    Except.ok ({ st with customers := kept }, st.customers.length - kept.length)
  else
    Except.error "store unavailable"

/-- One invocation of the cleanup sweep.  It issues a single deleteMany and
catches any store error: on success it returns the updated store and logs a
line only when the deleted count is nonzero; on failure it returns the store
unchanged and logs the failure.  The return type is total, so no exception
propagates to the scheduler. -/
def cleanupOldQuotations (avail : Bool) (now : Int) (st : Store) :
    Store × List String :=
  match deleteManyStaleQuotations avail now st with
  | Except.ok (st2, n) =>
      (st2, if n ≠ 0 then ["Cleaned up " ++ toString n ++ " old quotations"] else [])
  | Except.error e =>
      (st, ["Failed to clean up old quotations: " ++ e])

/-! ## Sweep scheduler (initializeApp in the backend server setup) -/

/-- Fire times of the sweep timer: after the store connects at connectAt,
a one-shot timer fires the sweep once after the startup delay, and from then
on an interval timer fires it every ONE_DAY_MS.  The k-th fire happens at
connectAt + STARTUP_DELAY_MS + k * ONE_DAY_MS. -/
def fireTime (connectAt : Int) (k : Nat) : Int :=
  connectAt + STARTUP_DELAY_MS + (k : Int) * ONE_DAY_MS

/-! ## Claim theorems for the sweep -/

/-- Claim C1: one sweep invocation deletes a customer iff its status is
"quotation" and its createdAt is strictly older than now minus thirty days;
in particular a quotation-status customer created 31 days ago is deleted and
one created 29 days ago is retained. -/
theorem cleanupOldQuotations_deletes_iff (now : Int) (st : Store) (c : Customer)
    (hc : c ∈ st.customers) :
    (c ∉ (cleanupOldQuotations true now st).fst.customers ↔
      c.status = "quotation" ∧ c.createdAt < now - THIRTY_DAYS_MS) ∧
    (c.status = "quotation" → c.createdAt = now - 31 * ONE_DAY_MS →
      c ∉ (cleanupOldQuotations true now st).fst.customers) ∧
    (c.createdAt = now - 29 * ONE_DAY_MS →
      c ∈ (cleanupOldQuotations true now st).fst.customers) := by
  have hmem : c ∈ (cleanupOldQuotations true now st).fst.customers ↔
      (isStaleQuotation now c = false) := by
    simp [cleanupOldQuotations, deleteManyStaleQuotations, List.mem_filter, hc]
  have hstale : isStaleQuotation now c = true ↔
      (c.status = "quotation" ∧ c.createdAt < now - THIRTY_DAYS_MS) := by
    simp [isStaleQuotation, quotationCutoff]
  refine ⟨?_, ?_, ?_⟩
  · rw [hmem]
    rw [← hstale]
    constructor
    · intro h
      cases hb : isStaleQuotation now c with
      | false => exact absurd hb h
      | true => rfl
    · intro h hfalse; rw [h] at hfalse; exact absurd hfalse (by simp)
  · intro hs hage
    rw [hmem]
    intro hfalse
    have : isStaleQuotation now c = true := by
      rw [hstale]
      refine ⟨hs, ?_⟩
      rw [hage]
      have hpos : (0 : Int) < ONE_DAY_MS := by norm_num [ONE_DAY_MS]
      have : THIRTY_DAYS_MS = 30 * ONE_DAY_MS := rfl
      omega
    rw [this] at hfalse; exact absurd hfalse (by simp)
  · intro hage
    rw [hmem]
    cases hb : isStaleQuotation now c with
    | false => rfl
    | true =>
      exfalso
      rw [hstale] at hb
      have hlt := hb.2
      rw [hage] at hlt
      have hpos : (0 : Int) < ONE_DAY_MS := by norm_num [ONE_DAY_MS]
      have h30 : THIRTY_DAYS_MS = 30 * ONE_DAY_MS := rfl
      omega

/-- Witness for C1 at a concrete store and time. -/
theorem cleanupOldQuotations_deletes_iff_witness :
    (Customer.mk 1 "quotation" (-(31 * ONE_DAY_MS)) ∈
        [Customer.mk 1 "quotation" (-(31 * ONE_DAY_MS))]) ∧
    (Customer.mk 1 "quotation" (-(31 * ONE_DAY_MS)) ∉
      (cleanupOldQuotations true 0
        (Store.mk [Customer.mk 1 "quotation" (-(31 * ONE_DAY_MS))] [])).fst.customers) := by
  have hmem : Customer.mk 1 "quotation" (-(31 * ONE_DAY_MS)) ∈
      [Customer.mk 1 "quotation" (-(31 * ONE_DAY_MS))] := List.mem_singleton.mpr rfl
  refine ⟨hmem, ?_⟩
  have h := cleanupOldQuotations_deletes_iff 0
    (Store.mk [Customer.mk 1 "quotation" (-(31 * ONE_DAY_MS))] [])
    (Customer.mk 1 "quotation" (-(31 * ONE_DAY_MS))) hmem
  exact h.2.1 rfl (by norm_num [ONE_DAY_MS])

/-- Claim C5: one sweep invocation deletes exactly the eligible customers.
Quotes are never deleted, every customer that is not a stale quotation is
retained unchanged, and with zero eligible customers the sweep performs no
deletions, logs nothing, and returns normally (its total return type means no
error escapes). -/
theorem cleanupOldQuotations_frame (now : Int) (st : Store) :
    ((cleanupOldQuotations true now st).fst.quotes = st.quotes) ∧
    (∀ c, c ∈ st.customers → isStaleQuotation now c = false →
      c ∈ (cleanupOldQuotations true now st).fst.customers) ∧
    ((∀ c, c ∈ st.customers → isStaleQuotation now c = false) →
      cleanupOldQuotations true now st = (st, [])) := by
  refine ⟨?_, ?_, ?_⟩
  · simp [cleanupOldQuotations, deleteManyStaleQuotations]
  · intro c hc hns
    simp [cleanupOldQuotations, deleteManyStaleQuotations, List.mem_filter, hc, hns]
  · intro hall
    have hfilter : st.customers.filter (fun c => !isStaleQuotation now c) =
        st.customers := by
      apply List.filter_eq_self.mpr
      intro c hc
      simp [hall c hc]
    simp [cleanupOldQuotations, deleteManyStaleQuotations, hfilter]

/-- Witness for C5 at a concrete store and time: a customer in a confirmed
status is retained by the sweep. -/
theorem cleanupOldQuotations_frame_witness :
    Customer.mk 2 "confirmed" 0 ∈
      (cleanupOldQuotations true 0
        (Store.mk [Customer.mk 2 "confirmed" 0] [Quote.mk 7 "pending" 0])).fst.customers :=
  (cleanupOldQuotations_frame 0
      (Store.mk [Customer.mk 2 "confirmed" 0] [Quote.mk 7 "pending" 0])).2.1
    (Customer.mk 2 "confirmed" 0) (List.mem_singleton.mpr rfl)
    (by simp [isStaleQuotation])

/-- Claim C6: when the store fails during a sweep invocation the sweep
catches the error, logs it, and returns with the store unmodified; the
total return type of cleanupOldQuotations means the exception does not
propagate, and the single deleteMany call in its body means no retry happens
within the invocation. -/
theorem cleanupOldQuotations_store_failure (now : Int) (st : Store) :
    (cleanupOldQuotations false now st).fst = st ∧
    (cleanupOldQuotations false now st).snd =
      ["Failed to clean up old quotations: store unavailable"] := by
  constructor <;> rfl

/-- Claim C7: the sweep scheduler fires exactly once after the startup delay
following store connection and then exactly once per 24-hour interval.  The
first fire is at connectAt + STARTUP_DELAY_MS, consecutive fires are
ONE_DAY_MS apart, no fire happens before the startup delay has elapsed,
distinct ticks fire at distinct times, and within each interval window
exactly one fire time occurs. -/
theorem fireTime_schedule (connectAt : Int) :
    (fireTime connectAt 0 = connectAt + STARTUP_DELAY_MS) ∧
    (∀ k, fireTime connectAt (k + 1) = fireTime connectAt k + ONE_DAY_MS) ∧
    (∀ k, connectAt + STARTUP_DELAY_MS ≤ fireTime connectAt k) ∧
    (∀ j k, fireTime connectAt j = fireTime connectAt k → j = k) ∧
    (∀ k t, fireTime connectAt k ≤ t → t < fireTime connectAt (k + 1) →
      (∃ j, fireTime connectAt j = t) → t = fireTime connectAt k) := by
  have hday : ONE_DAY_MS = 86400000 := by norm_num [ONE_DAY_MS]
  refine ⟨by simp [fireTime], ?_, ?_, ?_, ?_⟩
  · intro k
    simp only [fireTime]
    push_cast
    ring
  · intro k
    simp only [fireTime, hday]
    have : (0 : Int) ≤ (k : Int) * 86400000 :=
      mul_nonneg (Int.natCast_nonneg k) (by norm_num)
    omega
  · intro j k h
    simp only [fireTime, hday] at h
    have : (j : Int) = (k : Int) := by
      have := mul_right_cancel₀ (b := (86400000 : Int)) (by norm_num)
        (by linarith : (j : Int) * 86400000 = (k : Int) * 86400000)
      exact this
    exact_mod_cast this
  · intro k t h1 h2 hex
    obtain ⟨j, hj⟩ := hex
    simp only [fireTime, hday] at h1 h2 hj ⊢
    subst hj
    have hjk : (j : Int) = (k : Int) := by
      push_cast at h1 h2
      nlinarith [h1, h2]
    rw [hjk]

/-- Witness for C7: the first fire on a store connected at time 0 is exactly
at the startup delay. -/
theorem fireTime_schedule_witness : fireTime 0 0 = STARTUP_DELAY_MS := by
  have h := fireTime_schedule 0
  rw [h.1]; ring

/-! ## Status lifecycle engine -/

/-- Typed error of the lifecycle engine. -/
inductive TransitionError where
  | invalidTransition : TransitionError
deriving DecidableEq, Repr

/-- Modelled from the spec: the quote status-transition operation
transitionQuote is not present under src (only the spec describes the
lifecycle engine).  Per the spec: re-applying the current status is a no-op
and never errors; transitions are allowed only along pending to approved or
rejected; approved and rejected are terminal; leaving a terminal state, or
targeting an unrecognized status, fails with InvalidTransition and performs
no mutation; a successful transition updates the stored status and the
updated-at timestamp. -/
def transitionQuote (q : Quote) (target : String) (now : Int) :
    Except TransitionError Quote :=
  if target == q.status then
    Except.ok q
  else if q.status == "approved" || q.status == "rejected" then
    Except.error TransitionError.invalidTransition
  else if q.status == "pending" && (target == "approved" || target == "rejected") then
    Except.ok { q with status := target, updatedAt := now }
  else
    Except.error TransitionError.invalidTransition

/-- Claim C2: from a terminal status (approved or rejected), every transition
to a different target fails with InvalidTransition; the error result carries
no quote, so no mutation is performed. -/
theorem transitionQuote_terminal (q : Quote) (target : String) (now : Int)
    (hterm : q.status = "approved" ∨ q.status = "rejected")
    (hne : target ≠ q.status) :
    transitionQuote q target now = Except.error TransitionError.invalidTransition := by
  cases hterm with
  | inl h =>
    rw [h] at hne
    simp [transitionQuote, h, hne]
  | inr h =>
    rw [h] at hne
    simp [transitionQuote, h, hne]

/-- Witness for C2: an approved quote cannot move to rejected. -/
theorem transitionQuote_terminal_witness :
    transitionQuote (Quote.mk 1 "approved" 0) "rejected" 5 =
      Except.error TransitionError.invalidTransition :=
  transitionQuote_terminal (Quote.mk 1 "approved" 0) "rejected" 5
    (Or.inl rfl) (by simp)

/-- Claim C3: re-applying the current status of any quote is a no-op that
returns the quote unchanged and never errors. -/
theorem transitionQuote_idempotent (q : Quote) (now : Int) :
    transitionQuote q q.status now = Except.ok q := by
  simp [transitionQuote]

/-- Claim C4: a pending quote transitions successfully to approved or to
rejected; the resulting record carries the target status and the new
updated-at timestamp. -/
theorem transitionQuote_from_pending (q : Quote) (target : String) (now : Int)
    (hp : q.status = "pending")
    (ht : target = "approved" ∨ target = "rejected") :
    transitionQuote q target now = Except.ok { q with status := target, updatedAt := now } ∧
    (∀ q2, transitionQuote q target now = Except.ok q2 →
      q2.status = target ∧ q2.updatedAt = now) := by
  have hbne : (target == q.status) = false := by
    cases ht with
    | inl h => simp [h, hp]
    | inr h => simp [h, hp]
  have hmain : transitionQuote q target now =
      Except.ok { q with status := target, updatedAt := now } := by
    cases ht with
    | inl h => simp [transitionQuote, hbne, hp, h]
    | inr h => simp [transitionQuote, hbne, hp, h]
  refine ⟨hmain, ?_⟩
  intro q2 h2
  rw [hmain] at h2
  cases h2
  exact ⟨rfl, rfl⟩

/-- Witness for C4: a quote created pending and transitioned to approved has
status approved and the new timestamp. -/
theorem transitionQuote_from_pending_witness :
    transitionQuote (Quote.mk 3 "pending" 0) "approved" 9 =
      Except.ok (Quote.mk 3 "approved" 9) :=
  (transitionQuote_from_pending (Quote.mk 3 "pending" 0) "approved" 9
    rfl (Or.inl rfl)).1

/-! ## Message schema (backend message model) -/

/-- Inbound data for creating a message document: every schema field may be
absent from the request. -/
structure MessageInput where
  name : Option String
  email : Option String
  phone : Option String
  subject : Option String
  message : Option String
  isRead : Option Bool
  source : Option String
deriving DecidableEq, Repr

/-- A stored message document after validation and defaulting. -/
structure Message where
  name : String
  email : String
  phone : Option String
  subject : String
  message : String
  isRead : Bool
  source : String
deriving DecidableEq, Repr

/-- The source enum of the message schema: contact, quote, or other. -/
def validSource (s : String) : Bool :=
  s == "contact" || s == "quote" || s == "other"

/-- The required-string validator: a required String path of the schema
rejects a missing value and an empty string. -/
def requiredString (v : Option String) : Except String String :=
  match v with
  | some s => if s = "" then Except.error "required" else Except.ok s
  | none => Except.error "required"

/-- Document creation under the message schema: name, email, subject and
message are required; phone is optional; isRead defaults to false; source
defaults to "contact" and must belong to the source enum. -/
def createMessage (inp : MessageInput) : Except String Message :=
  match requiredString inp.name, requiredString inp.email,
      requiredString inp.subject, requiredString inp.message with
  | Except.ok n, Except.ok e, Except.ok sub, Except.ok msg =>
      if validSource (inp.source.getD "contact") then
        Except.ok
          { name := n, email := e, phone := inp.phone, subject := sub,
            message := msg, isRead := inp.isRead.getD false,
            source := inp.source.getD "contact" }
      else
        Except.error "source is not a valid enum value"
  | _, _, _, _ => Except.error "validation failed"

/-- Claim C8: every message admitted by the schema has source in the enum
set; omitting isRead and source yields the defaults false and "contact";
and creation fails when name, email, subject or message is absent. -/
theorem createMessage_schema (inp : MessageInput) (m : Message) :
    (createMessage inp = Except.ok m →
      m.source = "contact" ∨ m.source = "quote" ∨ m.source = "other") ∧
    (inp.isRead = none → inp.source = none → createMessage inp = Except.ok m →
      m.isRead = false ∧ m.source = "contact") ∧
    ((inp.name = none ∨ inp.email = none ∨ inp.subject = none ∨ inp.message = none) →
      createMessage inp ≠ Except.ok m) := by
  refine ⟨?_, ?_, ?_⟩
  · intro hok
    unfold createMessage at hok
    split at hok
    · split at hok
      · rename_i hv
        injection hok with hrec
        subst hrec
        simpa [validSource, or_assoc] using hv
      · exact absurd hok (by simp)
    · exact absurd hok (by simp)
  · intro hr hsrc hok
    unfold createMessage at hok
    rw [hr, hsrc] at hok
    split at hok
    · split at hok
      · injection hok with hrec
        subst hrec
        exact ⟨rfl, rfl⟩
      · exact absurd hok (by simp)
    · exact absurd hok (by simp)
  · intro habs hok
    unfold createMessage at hok
    rcases habs with h | h | h | h <;>
      split at hok <;> simp_all [requiredString]

/-- Witness for C8 at a concrete input: defaults are applied. -/
theorem createMessage_schema_witness :
    createMessage (MessageInput.mk (some "Ann") (some "a@b.c") none
        (some "Hi") (some "Hello") none none) =
      Except.ok (Message.mk "Ann" "a@b.c" none "Hi" "Hello" false "contact") ∧
    (Message.mk "Ann" "a@b.c" none "Hi" "Hello" false "contact").isRead = false ∧
    (Message.mk "Ann" "a@b.c" none "Hi" "Hello" false "contact").source = "contact" := by
  have h := (createMessage_schema
    (MessageInput.mk (some "Ann") (some "a@b.c") none
      (some "Hi") (some "Hello") none none)
    (Message.mk "Ann" "a@b.c" none "Hi" "Hello" false "contact")).2.1
    rfl rfl (by rfl)
  exact ⟨by rfl, h⟩

/-! ## JSON values for the package service (frontend packages management) -/

/-- A JavaScript value as handled by the package service: null (also standing
for undefined where only truthiness or absence matters), booleans, integer
numbers, strings, arrays, and objects as ordered key-value lists. -/
inductive JVal where
  | null : JVal
  | boolean : Bool → JVal
  | num : Int → JVal
  | str : String → JVal
  | arr : List JVal → JVal
  | obj : List (String × JVal) → JVal

/-- JavaScript truthiness of a value. -/
def truthy : JVal → Bool
  | JVal.null => false
  | JVal.boolean b => b
  | JVal.num n => n != 0
  | JVal.str s => s != ""
  | JVal.arr _ => true
  | JVal.obj _ => true

/-- Lookup of an object key: the value of the first matching entry. -/
def getField : List (String × JVal) → String → Option JVal
  | [], _ => none
  | (k, v) :: rest, key => if k == key then some v else getField rest key

/-- Property access on an arbitrary value: only objects have fields. -/
def getProp (v : JVal) (key : String) : Option JVal :=
  match v with
  | JVal.obj fs => getField fs key
  | _ => none

/-- Truthiness of a property, with a missing property counting as falsy
(undefined). -/
def propTruthy (v : JVal) (key : String) : Bool :=
  match getProp v key with
  | some x => truthy x
  | none => false

/-- Whether an object has a key. -/
def hasKey (fs : List (String × JVal)) (key : String) : Bool :=
  match getField fs key with
  | some _ => true
  | none => false

/-- Replace the value at every entry with the given key. -/
def replaceKey : List (String × JVal) → String → JVal → List (String × JVal)
  | [], _, _ => []
  | (k, x) :: rest, key, v =>
      if k == key then (k, v) :: replaceKey rest key v
      else (k, x) :: replaceKey rest key v

/-- Semantics of an object spread followed by one explicit key: the key is
overwritten in place when already present, otherwise appended at the end. -/
def setKey (fs : List (String × JVal)) (key : String) (v : JVal) :
    List (String × JVal) :=
  if hasKey fs key then replaceKey fs key v else fs ++ [(key, v)]

/-- Truthiness of the imageUrl field of a package object. -/
def imageUrlTruthy (fields : List (String × JVal)) : Bool :=
  match getField fields "imageUrl" with
  | some v => truthy v
  | none => false

/-- The image chosen by normalizeFromBackend: the first truthy element with
a truthy isPrimary, else the first element of the array. -/
def chooseImage (imgs : List JVal) : Option JVal :=
  match imgs.find? (fun i => truthy i && propTruthy i "isPrimary") with
  | some i => some i
  | none => imgs.head?

/-- The package normalizer of the package service: a package object with a
falsy imageUrl and a non-empty images array gains an imageUrl taken from the
chosen image when that image and its url are truthy; every other value is
returned unchanged. -/
def normalizeFromBackend (pkg : JVal) : JVal :=
  match pkg with
  | JVal.obj fields =>
      if imageUrlTruthy fields then JVal.obj fields
      else
        match getField fields "images" with
        | some (JVal.arr imgs) =>
            if imgs.isEmpty then JVal.obj fields
            else
              match chooseImage imgs with
              | some primary =>
                  if truthy primary then
                    match getProp primary "url" with
                    | some u =>
                        if truthy u then JVal.obj (setKey fields "imageUrl" u)
                        else JVal.obj fields
                    | none => JVal.obj fields
                  else JVal.obj fields
              | none => JVal.obj fields
        | _ => JVal.obj fields
  | other => other

/-- The payload extraction of fetchAllPackages: the data field of the
response body when present and not null, else the body itself. -/
def extractPayload (data : JVal) : JVal :=
  match data with
  | JVal.obj fields =>
      match getField fields "data" with
      | some JVal.null => JVal.obj fields
      | some v => v
      | none => JVal.obj fields
  | other => other

/-- fetchAllPackages: on a failed request it returns the empty list; on a
response whose extracted payload is not an array it returns the empty list;
otherwise it returns the payload with each element normalized. -/
def fetchAllPackages (resp : Except String JVal) : List JVal :=
  match resp with
  | Except.error _ => []
  | Except.ok data =>
      match extractPayload data with
      | JVal.arr l => l.map normalizeFromBackend
      | _ => []

/-! ## Lookup lemmas for setKey -/

theorem getField_append (l1 l2 : List (String × JVal)) (key : String) :
    getField (l1 ++ l2) key =
      match getField l1 key with
      | some v => some v
      | none => getField l2 key := by
  induction l1 with
  | nil => simp [getField]
  | cons hd tl ih =>
      obtain ⟨k, x⟩ := hd
      by_cases hk : (k == key) = true
      · simp [getField, hk]
      · simp [getField, hk, ih]

theorem getField_replaceKey_self (fs : List (String × JVal)) (key : String)
    (v : JVal) (h : hasKey fs key = true) :
    getField (replaceKey fs key v) key = some v := by
  induction fs with
  | nil => simp [hasKey, getField] at h
  | cons hd tl ih =>
      obtain ⟨k, x⟩ := hd
      by_cases hk : (k == key) = true
      · simp [replaceKey, getField, hk]
      · have h2 : hasKey tl key = true := by
          unfold hasKey at h ⊢
          unfold getField at h
          rw [if_neg hk] at h
          exact h
        simp [replaceKey, getField, hk, ih h2]

theorem getField_replaceKey_ne (fs : List (String × JVal)) (key key2 : String)
    (v : JVal) (h : key2 ≠ key) :
    getField (replaceKey fs key v) key2 = getField fs key2 := by
  induction fs with
  | nil => simp [replaceKey]
  | cons hd tl ih =>
      obtain ⟨k, x⟩ := hd
      by_cases hk : (k == key) = true
      · have hk2 : (k == key2) = false := by
          have : k = key := by simpa using hk
          subst this
          simpa using fun hcontra => h hcontra.symm
        simp [replaceKey, getField, hk, hk2, ih]
      · by_cases hk2 : (k == key2) = true
        · simp [replaceKey, getField, hk, hk2]
        · simp [replaceKey, getField, hk, hk2, ih]

theorem getField_setKey_self (fs : List (String × JVal)) (key : String) (v : JVal) :
    getField (setKey fs key v) key = some v := by
  unfold setKey
  by_cases h : hasKey fs key = true
  · rw [if_pos h]
    exact getField_replaceKey_self fs key v h
  · rw [if_neg h]
    rw [getField_append]
    have hnone : getField fs key = none := by
      unfold hasKey at h
      cases hg : getField fs key
      · rfl
      · rw [hg] at h; simp at h
    rw [hnone]
    simp [getField]

theorem getField_setKey_ne (fs : List (String × JVal)) (key key2 : String)
    (v : JVal) (h : key2 ≠ key) :
    getField (setKey fs key v) key2 = getField fs key2 := by
  unfold setKey
  by_cases hh : hasKey fs key = true
  · rw [if_pos hh]
    exact getField_replaceKey_ne fs key key2 v h
  · rw [if_neg hh]
    rw [getField_append]
    cases hg : getField fs key2
    · simp only []
      simp [getField, show (key == key2) = false by simpa using fun hc => h hc.symm]
    · simp only []

/-- The exact condition under which normalizeFromBackend rewrites its input:
an object with falsy imageUrl whose images field is a non-empty array and
whose chosen image is truthy with a truthy url. -/
def willNormalize (pkg : JVal) : Bool :=
  match pkg with
  | JVal.obj fields =>
      !imageUrlTruthy fields &&
        (match getField fields "images" with
         | some (JVal.arr imgs) =>
             !imgs.isEmpty &&
               (match chooseImage imgs with
                | some primary =>
                    truthy primary &&
                      (match getProp primary "url" with
                       | some u => truthy u
                       | none => false)
                | none => false)
         | _ => false)
  | _ => false

/-- Claim C10: a package object lacking a (truthy) imageUrl whose non-empty
images array yields a chosen image with a truthy url is returned with
imageUrl set to that url and every other field unchanged; every other input,
non-objects included, is returned unchanged. -/
theorem normalizeFromBackend_spec (pkg : JVal) (fields : List (String × JVal))
    (imgs : List JVal) (primary u : JVal) :
    (pkg = JVal.obj fields →
      imageUrlTruthy fields = false →
      getField fields "images" = some (JVal.arr imgs) →
      imgs ≠ [] →
      chooseImage imgs = some primary →
      truthy primary = true →
      getProp primary "url" = some u →
      truthy u = true →
      normalizeFromBackend pkg = JVal.obj (setKey fields "imageUrl" u) ∧
      getField (setKey fields "imageUrl" u) "imageUrl" = some u ∧
      (∀ k2, k2 ≠ "imageUrl" →
        getField (setKey fields "imageUrl" u) k2 = getField fields k2)) ∧
    (willNormalize pkg = false → normalizeFromBackend pkg = pkg) := by
  refine ⟨?_, ?_⟩
  · intro hpkg hurl himgs hne hchoose hprim hup hu
    subst hpkg
    have hne2 : imgs.isEmpty = false := by
      cases imgs with
      | nil => exact absurd rfl hne
      | cons a as => rfl
    refine ⟨?_, getField_setKey_self fields "imageUrl" u, ?_⟩
    · simp [normalizeFromBackend, hurl, himgs, hne2, hchoose, hprim, hup, hu]
    · intro k2 hk2
      exact getField_setKey_ne fields "imageUrl" k2 u hk2
  · intro hwn
    cases pkg with
    | null => rfl
    | boolean b => rfl
    | num n => rfl
    | str s => rfl
    | arr l => rfl
    | obj fields =>
        by_cases h1 : imageUrlTruthy fields = true
        · simp [normalizeFromBackend, h1]
        · rw [Bool.not_eq_true] at h1
          cases h2 : getField fields "images" with
          | none => simp [normalizeFromBackend, h1, h2]
          | some v =>
              cases v with
              | null => simp [normalizeFromBackend, h1, h2]
              | boolean b => simp [normalizeFromBackend, h1, h2]
              | num n => simp [normalizeFromBackend, h1, h2]
              | str s => simp [normalizeFromBackend, h1, h2]
              | obj fs2 => simp [normalizeFromBackend, h1, h2]
              | arr imgs =>
                  by_cases h3 : imgs.isEmpty = true
                  · simp [normalizeFromBackend, h1, h2, h3]
                  · rw [Bool.not_eq_true] at h3
                    cases h4 : chooseImage imgs with
                    | none => simp [normalizeFromBackend, h1, h2, h3, h4]
                    | some primary2 =>
                        by_cases h5 : truthy primary2 = true
                        · cases h6 : getProp primary2 "url" with
                          | none =>
                              simp [normalizeFromBackend, h1, h2, h3, h4, h5, h6]
                          | some u2 =>
                              have h7 : truthy u2 = false := by
                                simp [willNormalize, h1, h2, h3, h4, h5, h6] at hwn
                                exact hwn
                              simp [normalizeFromBackend, h1, h2, h3, h4, h5, h6, h7]
                        · rw [Bool.not_eq_true] at h5
                          simp [normalizeFromBackend, h1, h2, h3, h4, h5]

/-- Witness for C10 at a concrete package object with a primary image. -/
theorem normalizeFromBackend_spec_witness :
    normalizeFromBackend
        (JVal.obj [("name", JVal.str "p"),
          ("images", JVal.arr
            [JVal.obj [("isPrimary", JVal.boolean true), ("url", JVal.str "u1")]])]) =
      JVal.obj
        (setKey [("name", JVal.str "p"),
          ("images", JVal.arr
            [JVal.obj [("isPrimary", JVal.boolean true), ("url", JVal.str "u1")]])]
          "imageUrl" (JVal.str "u1")) :=
  ((normalizeFromBackend_spec
      (JVal.obj [("name", JVal.str "p"),
        ("images", JVal.arr
          [JVal.obj [("isPrimary", JVal.boolean true), ("url", JVal.str "u1")]])])
      [("name", JVal.str "p"),
        ("images", JVal.arr
          [JVal.obj [("isPrimary", JVal.boolean true), ("url", JVal.str "u1")]])]
      [JVal.obj [("isPrimary", JVal.boolean true), ("url", JVal.str "u1")]]
      (JVal.obj [("isPrimary", JVal.boolean true), ("url", JVal.str "u1")])
      (JVal.str "u1")).1
    rfl rfl rfl (by simp) rfl rfl rfl rfl).1

/-- Claim C9: fetchAllPackages returns the empty list on a failed request and
on any response whose extracted payload is not an array, and returns the
payload with each element normalized when the payload is an array; its list
return type means it always yields an array. -/
theorem fetchAllPackages_spec (e : String) (data : JVal) (l : List JVal) :
    (fetchAllPackages (Except.error e) = []) ∧
    ((∀ xs, extractPayload data ≠ JVal.arr xs) →
      fetchAllPackages (Except.ok data) = []) ∧
    (extractPayload data = JVal.arr l →
      fetchAllPackages (Except.ok data) = l.map normalizeFromBackend) := by
  have hstep : fetchAllPackages (Except.ok data) =
      (match extractPayload data with
        | JVal.arr xs => xs.map normalizeFromBackend
        | _ => []) := rfl
  refine ⟨rfl, ?_, ?_⟩
  · intro hna
    rw [hstep]
    cases hp : extractPayload data with
    | arr xs => exact absurd hp (hna xs)
    | null => rfl
    | boolean b => rfl
    | num n => rfl
    | str s => rfl
    | obj fs => rfl
  · intro hl
    rw [hstep, hl]

/-- Witness for C9: a wrapped singleton payload is unwrapped and normalized. -/
theorem fetchAllPackages_spec_witness :
    fetchAllPackages (Except.ok (JVal.obj [("data", JVal.arr [JVal.null])])) =
      [JVal.null] :=
  ((fetchAllPackages_spec "request failed"
      (JVal.obj [("data", JVal.arr [JVal.null])]) [JVal.null]).2.2 rfl).trans rfl

end Eargle
